import Mathlib

/-!
Verification of the FireSculptureController runtime core against its
specification.  Each Python component relevant to the claims is shallowly
embedded as executable Lean definitions: dictionaries become association
lists, threads become explicit step relations driven by a schedule, and
exceptions become explicit error flags returned next to the mutated state
(Python mutates the object first and the exception then propagates, so the
embedding returns the partially mutated state together with the flag).
-/

namespace FireSculpture

/-! ## Association lists (Python dict embedding)

`lookupA` is `d[k]` (first matching key), `setA` is in-place value update of
an existing key, `removeA` is `del d[k]`.  Keys inserted by the modelled code
are always fresh, so updating every occurrence coincides with dict update. -/

def lookupA {α : Type} (k : Nat) : List (Nat × α) → Option α
  | [] => none
  | (k2, v) :: xs => if k = k2 then some v else lookupA k xs

def setA {α : Type} (k : Nat) (v : α) : List (Nat × α) → List (Nat × α)
  | [] => []
  | (k2, v2) :: xs => if k = k2 then (k2, v) :: setA k v xs else (k2, v2) :: setA k v xs

def removeA {α : Type} (k : Nat) (xs : List (Nat × α)) : List (Nat × α) :=
  xs.filter (fun e => ¬ (e.1 = k))

/-! ## InputManager (src/ProgramModules/InputManager.py)

Embedding choices:
  * `inputInstances` maps an instance id to its `isPersistant()` flag (the
    only attribute of an Input the manager's bookkeeping reads); a stopped
    instance is recorded in `stoppedLog` when the manager calls `stop()`.
  * A usage record `self.inputInstanceUses[iid]` entry `[userId, userSubId]`
    becomes `Nat × Option Nat`; `none` stands for the Python default
    `userSubId = False` (role ids used by the program are truthy values).
  * The Python parameter default `inputInstanceId = False` together with the
    `if not inputInstanceId` test makes both `False` and the integer id `0`
    select the bulk branch; `pyFalsyId` captures exactly that truthiness.
  * A `KeyError` escaping a call is the `Bool` component of the result,
    `true` meaning the call raised; the state component carries whatever
    mutation happened before the raise. -/

structure IMState where
  inputInstances : List (Nat × Bool)
  inputInstanceUses : List (Nat × List (Nat × Option Nat))
  stoppedLog : List Nat
  deriving DecidableEq, Repr

def pyFalsyId : Option Nat → Bool
  | none => true
  | some n => n == 0

/-- `registerUsage`: create the uses entry when absent, append the record,
then `getInputObj` (which raises `KeyError` when the instance is gone). -/
def registerUsage (s : IMState) (userId iid : Nat) (subId : Option Nat) :
    IMState × Bool :=
  let uses1 := if (lookupA iid s.inputInstanceUses).isSome then s.inputInstanceUses
               else s.inputInstanceUses ++ [(iid, [])]
  let recs := (lookupA iid uses1).getD []
  let s2 : IMState := { s with inputInstanceUses := setA iid (recs ++ [(userId, subId)]) uses1 }
  (s2, !(lookupA iid s.inputInstances).isSome)

/-- `checkItem(l, userId, userSubId)` from `unRegisterUsage`. -/
def checkItem (userId : Nat) (subId : Option Nat) (l : Nat × Option Nat) : Bool :=
  userId == l.1 && (subId.isNone || subId == l.2)

/-- Inner `unRegisterForInput`: filter out matching records; when the entry
becomes empty and the instance is not persistent, stop and delete it.  The
two dictionary reads can raise `KeyError` (second result `true`). -/
def unRegisterForInput (s : IMState) (userId iid : Nat) (subId : Option Nat) :
    IMState × Bool :=
  match lookupA iid s.inputInstanceUses with
  | none => (s, true)
  | some recs =>
    let recs2 := recs.filter (fun l => !(checkItem userId subId l))
    let s1 : IMState := { s with inputInstanceUses := setA iid recs2 s.inputInstanceUses }
    if recs2.length = 0 then
      match lookupA iid s1.inputInstances with
      | none => (s1, true)
      | some pers =>
        if pers then (s1, false)
        else ({ s1 with inputInstances := removeA iid s1.inputInstances,
                        stoppedLog := s1.stoppedLog ++ [iid] }, false)
    else (s1, false)

/-- The bulk branch: iterate `unRegisterForInput` over the snapshot of the
uses-table keys; a raise aborts the iteration and propagates. -/
def unRegisterBulk (userId : Nat) (subId : Option Nat) :
    IMState → List Nat → IMState × Bool
  | s, [] => (s, false)
  | s, k :: ks =>
    let r := unRegisterForInput s userId k subId
    if r.2 then (r.1, true) else unRegisterBulk userId subId r.1 ks

def unRegisterUsage (s : IMState) (userId : Nat) (iid : Option Nat)
    (subId : Option Nat) : IMState × Bool :=
  if pyFalsyId iid then
    unRegisterBulk userId subId s (s.inputInstanceUses.map Prod.fst)
  else
    unRegisterForInput s userId (iid.getD 0) subId

/-- Live usage-record count of an instance. -/
def usageCount (s : IMState) (iid : Nat) : Nat :=
  ((lookupA iid s.inputInstanceUses).getD []).length

/-- The registry invariant of the spec: an id with live records is present,
and a present non-persistent id has at least one live record. -/
def RegistryInv (s : IMState) : Prop :=
  (∀ iid recs, lookupA iid s.inputInstanceUses = some recs → recs ≠ [] →
      (lookupA iid s.inputInstances).isSome = true)
  ∧ (∀ iid pers, lookupA iid s.inputInstances = some pers → pers = false →
      usageCount s iid ≠ 0)

def registryInvB (s : IMState) : Bool :=
  ((s.inputInstanceUses.map Prod.fst).all (fun iid =>
      match lookupA iid s.inputInstanceUses with
      | some recs => recs.isEmpty || (lookupA iid s.inputInstances).isSome
      | none => true))
  && ((s.inputInstances.map Prod.fst).all (fun iid =>
      match lookupA iid s.inputInstances with
      | some pers => pers || !(usageCount s iid == 0)
      | none => true))

/-! ### Call sequences over the manager -/

inductive IMCall where
  | register (userId iid : Nat) (subId : Option Nat)
  | unregister (userId : Nat) (iid : Option Nat) (subId : Option Nat)
  deriving DecidableEq, Repr

def imStep (s : IMState) : IMCall → IMState
  | .register u i r => (registerUsage s u i r).1
  | .unregister u i r => (unRegisterUsage s u i r).1

def imRun (s : IMState) (cs : List IMCall) : IMState := cs.foldl imStep s

/-- A call is well formed when `registerUsage` targets an instance that is
still in the registry (the way `buildInputCollection` produces calls). -/
def callOk (s : IMState) : IMCall → Bool
  | .register _ i _ => (lookupA i s.inputInstances).isSome
  | .unregister _ _ _ => true

def wfCalls (s : IMState) : List IMCall → Bool
  | [] => true
  | c :: cs => callOk s c && wfCalls (imStep s c) cs

/-! ## Timer (src/ProgramModules/Timers.py)

The `Timer.TimerThread.run` loop and the `Timer.stop` caller are embedded as
an interleaved transition system driven by an explicit schedule of atomic
actions.  Program counters of the thread:
  * `start`    — line 12, `self.timer.start()` (arms the hardware timer);
  * `imm`      — lines 13-14, the unconditional `doFunction()` performed at
                 thread start when `repeating` is set;
  * `loopCheck`— line 15, `while not self.parent.stopEvent.isSet()`;
  * `wait`     — lines 16-17, the busy wait on `waitEvent`;
  * `guard`    — line 18, the read of `self.parent.fireFunction`;
  * `fire`     — line 19, the `doFunction()` call (counted in `fired`);
  * `rearm`    — lines 20-23, replacing `waitEvent`/`timer` when repeating;
  * `done`     — the loop exited.
The `clock` action is the hardware timer expiry calling `waitEvent.set()`
(over-approximated: allowed at any time, which only adds schedules).  The
`stopCall` action performs the entire body of `Timer.stop` (lines 37-41)
atomically, which is generous to the code: any failure found under an atomic
`stop` is also a failure of the real, non-atomic one. -/

inductive TPc where
  | start | imm | loopCheck | wait | guard | fire | rearm | done
  deriving DecidableEq, Repr

structure TimerSys where
  repeating : Bool
  pc : TPc
  fireFunction : Bool
  waitEvent : Bool
  stopEvent : Bool
  fired : Nat
  deriving DecidableEq, Repr

inductive TAct where
  | thread | clock | stopCall
  deriving DecidableEq, Repr

def threadStep (st : TimerSys) : TimerSys :=
  match st.pc with
  | .start => { st with pc := if st.repeating then .imm else .loopCheck }
  | .imm => { st with fired := st.fired + 1, pc := .loopCheck }
  | .loopCheck => { st with pc := if st.stopEvent then .done else .wait }
  | .wait => { st with pc := if st.waitEvent then .guard else .wait }
  | .guard => { st with pc := if st.fireFunction then .fire else .rearm }
  | .fire => { st with fired := st.fired + 1, pc := .rearm }
  | .rearm => if st.repeating then { st with waitEvent := false, pc := .loopCheck }
              else { st with pc := .loopCheck }
  | .done => st

def tStep (st : TimerSys) : TAct → TimerSys
  | .thread => threadStep st
  | .clock => { st with waitEvent := true }
  | .stopCall => { st with fireFunction := false, waitEvent := true, stopEvent := true }

def tRun (st : TimerSys) (acts : List TAct) : TimerSys := acts.foldl tStep st

/-- The state right after `Timer.__init__` started the thread. -/
def timerInit (repeating : Bool) : TimerSys :=
  ⟨repeating, .start, true, false, false, 0⟩

/-- Flags established by `stop()` and never undone by the thread or clock. -/
def StopFlags (st : TimerSys) : Prop :=
  st.fireFunction = false ∧ st.stopEvent = true

/-- How many more callback invocations are still possible once the stop flags
hold: one for a thread already past the `fireFunction` guard, one for the
unconditional start-up invocation of a repeating timer. -/
def postStopBudget (st : TimerSys) : Nat :=
  match st.pc with
  | .fire => 1
  | .imm => 1
  | .start => if st.repeating then 1 else 0
  | _ => 0

/-- Invariant of a run of a non-repeating timer in which the hardware timer
never expires: nothing has fired and nothing can be about to fire. -/
def NoClockInv (st : TimerSys) : Prop :=
  st.repeating = false ∧ st.fired = 0 ∧ st.pc ≠ TPc.fire ∧ st.pc ≠ TPc.imm
  ∧ (st.waitEvent = true → st.fireFunction = false)
  ∧ (st.pc = TPc.guard → st.fireFunction = false)

/-! ## SerialAdaptor (src/ProgramModules/Adaptors.py)

Hardware behaviour is an oracle pair: `openOk p` says whether
`serial.Serial(port p, ...)` succeeds, `writeOk p` whether
`self.connection.write(data)` on the connection opened via port `p`
succeeds; a write on `self.connection = False` always raises (and is caught
by the bare `except`).  `appMessenger.putMessage('log', ...)` calls become
`LogEntry` values appended to a log.  `Action` records each externally
visible hardware operation in order, so "exactly one reconnect and one
retried write" is a statement about the action trace. -/

inductive LogEntry where
  | connected (adaptorId port : Nat)
  | connectFail (adaptorId port : Nat)
  | sendFail (adaptorId : Nat)
  deriving DecidableEq, Repr

inductive Action where
  | openPort (port : Nat)
  | write
  deriving DecidableEq, Repr

structure AdaptorState where
  adaptorId : Nat
  ports : List Nat
  connection : Option Nat
  log : List LogEntry
  deriving DecidableEq, Repr

/-- The `while (not self.connection) and portIndex < len(ports)` loop of
`connect()`, after `self.connection` was reset to `False`. -/
def connectLoop (openOk : Nat → Bool) (aid : Nat) :
    List Nat → Option Nat × List LogEntry × List Action
  | [] => (none, [], [])
  | p :: ps =>
    if openOk p then (some p, [LogEntry.connected aid p], [Action.openPort p])
    else
      let rest := connectLoop openOk aid ps
      (rest.1, LogEntry.connectFail aid p :: rest.2.1, Action.openPort p :: rest.2.2)

def connect (openOk : Nat → Bool) (st : AdaptorState) : AdaptorState × List Action :=
  let r := connectLoop openOk st.adaptorId st.ports
  ({ st with connection := r.1, log := st.log ++ r.2.1 }, r.2.2)

/-- One attempted `self.connection.write(data)`: fails when disconnected or
when the link's write fails. -/
def writeAttempt (writeOk : Nat → Bool) (conn : Option Nat) : Bool :=
  match conn with
  | none => false
  | some p => writeOk p

/-- `transmitData`: `success = True`; try the write; on exception `connect()`
and retry once; on a second exception log the send failure.  `success` is
never assigned `False` (the assignment is commented out in the source), so
the returned flag is always `True`. -/
def transmitData (openOk writeOk : Nat → Bool) (st : AdaptorState) :
    AdaptorState × Bool × List Action :=
  if writeAttempt writeOk st.connection then (st, true, [Action.write])
  else
    if writeAttempt writeOk (connect openOk st).1.connection then
      ((connect openOk st).1, true, Action.write :: (connect openOk st).2 ++ [Action.write])
    else
      ({ (connect openOk st).1 with
          log := (connect openOk st).1.log ++ [LogEntry.sendFail st.adaptorId] }, true,
        Action.write :: (connect openOk st).2 ++ [Action.write])

/-! ## DataChannelManager.AdaptorThread (src/ProgramModules/DataChannelManager.py)

The worker's mailbox `self.data` is the byte list `data`; the producer-side
`transmitData` is `self.data += data; return True`; one iteration of the
drain loop body (`run`, lines 16-19) is `workerDrainStep`, recording the
payload handed to the wrapped `Adaptor.transmitData` in `sentCalls`.  The
claim's scenario has both appends happen before the drain iteration, so the
sequential composition below is exactly that interleaving; `transmitData`
itself touches only the mailbox, never the adaptor. -/

structure WorkerState where
  data : List Nat
  sentCalls : List (List Nat)
  deriving DecidableEq, Repr

def workerTransmitData (st : WorkerState) (payload : List Nat) : WorkerState × Bool :=
  ({ st with data := st.data ++ payload }, true)

def workerDrainStep (st : WorkerState) : WorkerState :=
  if st.data = [] then st
  else { data := [], sentCalls := st.sentCalls ++ [st.data] }

/-! ## PooferModule.doUpdates (src/ProgramModules/SculptureModules.py)

A live pattern contributes its `getState(row, col)` gated by the module's
per-pattern row-selection list `self.patternRowSettings[patternId][row]`.
`poofCellState` is the inner accumulation loop of `doUpdates` (lines 72-75:
`state = False; for patternId ...: if rowSettings and getState: state =
True`), and `pooferDoUpdates` produces the composed output grid written to
`currentOutputState` cell by cell. -/

structure PatternEntry where
  rowSettings : List Bool
  getState : Nat → Nat → Bool

def poofCellState (pats : List PatternEntry) (row col : Nat) : Bool :=
  pats.foldl
    (fun st p => if p.rowSettings.getD row false && p.getState row col then true else st)
    false

def pooferDoUpdates (pats : List PatternEntry) (rows cols : Nat) : List (List Bool) :=
  (List.range rows).map (fun row => (List.range cols).map (fun col => poofCellState pats row col))

/-- Pattern X of the spec scenario: state [true, false, false], row mask on. -/
def patternX : PatternEntry := ⟨[true], fun _ col => col == 0⟩

/-- Pattern Y of the spec scenario: state [false, false, true], row mask on. -/
def patternY : PatternEntry := ⟨[true], fun _ col => col == 2⟩

/-- Pattern Y with its row-selection mask switched off. -/
def patternYoff : PatternEntry := ⟨[false], fun _ col => col == 2⟩

/-! ## LED value setters (src/Patterns/LED.py)

Colour components are integers checked against [0, 255] one by one before
`self._color_triple` is assigned; brightness is a number checked against
[0, 1] before `self._brightness` is assigned.  A raised `ValueError` is the
`true` flag; the returned state is the object after the call, unchanged
whenever the setter raised. -/

structure LED where
  color_triple : Int × Int × Int
  brightness : Rat
  deriving DecidableEq, Repr

def setColorTriple (led : LED) (t : Int × Int × Int) : LED × Bool :=
  if t.1 < 0 ∨ t.1 > 255 then (led, true)
  else if t.2.1 < 0 ∨ t.2.1 > 255 then (led, true)
  else if t.2.2 < 0 ∨ t.2.2 > 255 then (led, true)
  else ({ led with color_triple := t }, false)

def setBrightness (led : LED) (b : Rat) : LED × Bool :=
  if b < 0 then (led, true)
  else if b > 1 then (led, true)
  else ({ led with brightness := b }, false)

/-! ## Theorems -/

theorem lookupA_setA_self {α : Type} (k : Nat) (v : α) (xs : List (Nat × α)) :
    lookupA k (setA k v xs) = if (lookupA k xs).isSome then some v else none := by
  induction xs with
  | nil => simp [lookupA, setA]
  | cons e xs ih =>
    obtain ⟨k2, v2⟩ := e
    by_cases h : k = k2 <;> simp [lookupA, setA, h, ih]

theorem lookupA_setA_ne {α : Type} {k k2 : Nat} (v : α) (xs : List (Nat × α))
    (h : k2 ≠ k) : lookupA k2 (setA k v xs) = lookupA k2 xs := by
  induction xs with
  | nil => simp [setA]
  | cons e xs ih =>
    obtain ⟨k3, v3⟩ := e
    by_cases h3 : k = k3
    · subst h3
      simp [lookupA, setA, h, ih]
    · by_cases h4 : k2 = k3 <;> simp [lookupA, setA, h3, h4, ih]

theorem lookupA_removeA_self {α : Type} (k : Nat) (xs : List (Nat × α)) :
    lookupA k (removeA k xs) = none := by
  induction xs with
  | nil => simp [removeA, lookupA]
  | cons e xs ih =>
    obtain ⟨k2, v2⟩ := e
    by_cases h : k2 = k
    · subst h
      simpa [removeA, List.filter] using ih
    · simp [removeA, List.filter, h, lookupA, Ne.symm h] at ih ⊢
      simpa [removeA] using ih

theorem lookupA_removeA_ne {α : Type} {k k2 : Nat} (xs : List (Nat × α))
    (h : k2 ≠ k) : lookupA k2 (removeA k xs) = lookupA k2 xs := by
  induction xs with
  | nil => simp [removeA]
  | cons e xs ih =>
    obtain ⟨k3, v3⟩ := e
    by_cases h3 : k3 = k
    · subst h3
      simp [removeA, List.filter, lookupA, h, Ne.symm h] at ih ⊢
      simpa [removeA] using ih
    · by_cases h4 : k2 = k3
      · simp [removeA, List.filter, h3, lookupA, h4] at ih ⊢
      · simp [removeA, List.filter, h3, lookupA, h4] at ih ⊢
        simpa [removeA] using ih

theorem lookupA_append {α : Type} (k : Nat) (xs ys : List (Nat × α)) :
    lookupA k (xs ++ ys) = ((lookupA k xs).orElse (fun _ => lookupA k ys)) := by
  induction xs with
  | nil => simp [lookupA]
  | cons e xs ih =>
    obtain ⟨k2, v2⟩ := e
    by_cases h : k = k2 <;> simp [lookupA, h, ih]

theorem lookupA_isSome_mem_keys {α : Type} {k : Nat} {xs : List (Nat × α)}
    (h : (lookupA k xs).isSome = true) : k ∈ xs.map Prod.fst := by
  induction xs with
  | nil => simp [lookupA] at h
  | cons e xs ih =>
    obtain ⟨k2, v2⟩ := e
    by_cases h2 : k = k2
    · simp [h2]
    · simp [lookupA, h2] at h
      simp [ih h]

theorem registryInv_iff (s : IMState) : RegistryInv s ↔ registryInvB s = true := by
  constructor
  · rintro ⟨h1, h2⟩
    rw [registryInvB, Bool.and_eq_true]
    refine ⟨List.all_eq_true.mpr ?_, List.all_eq_true.mpr ?_⟩
    · intro iid _
      cases hl : lookupA iid s.inputInstanceUses with
      | none => simp
      | some recs =>
        rcases List.eq_nil_or_concat recs with h | ⟨ys, y, rfl⟩
        · simp [h]
        · simp [h1 iid _ hl (by simp)]
    · intro iid _
      cases hl : lookupA iid s.inputInstances with
      | none => simp
      | some pers =>
        cases pers with
        | true => simp
        | false => simp [h2 iid false hl rfl]
  · intro hb
    rw [registryInvB, Bool.and_eq_true] at hb
    obtain ⟨hb1, hb2⟩ := hb
    constructor
    · intro iid recs hl hne
      have hmem : iid ∈ s.inputInstanceUses.map Prod.fst :=
        lookupA_isSome_mem_keys (by simp [hl])
      have := List.all_eq_true.mp hb1 iid hmem
      rw [hl, Bool.or_eq_true] at this
      rcases this with h | h
      · exact absurd (List.isEmpty_iff.mp h) hne
      · exact h
    · intro iid pers hl hf
      have hmem : iid ∈ s.inputInstances.map Prod.fst :=
        lookupA_isSome_mem_keys (by simp [hl])
      have := List.all_eq_true.mp hb2 iid hmem
      rw [hl, hf, Bool.or_eq_true] at this
      rcases this with h | h
      · exact absurd h (by simp)
      · intro hc
        simp [hc] at h

theorem registerUsage_preserves (s : IMState) (u i : Nat) (r : Option Nat)
    (hs : RegistryInv s) (hok : (lookupA i s.inputInstances).isSome = true) :
    RegistryInv (registerUsage s u i r).1 := by
  obtain ⟨h1, h2⟩ := hs
  have huses1 :
      ∀ j, j ≠ i →
        lookupA j (if (lookupA i s.inputInstanceUses).isSome then s.inputInstanceUses
                   else s.inputInstanceUses ++ [(i, [])]) = lookupA j s.inputInstanceUses := by
    intro j hj
    split
    · rfl
    · rw [lookupA_append]
      cases h : lookupA j s.inputInstanceUses <;> simp [lookupA, hj]
  have huses1i :
      (lookupA i (if (lookupA i s.inputInstanceUses).isSome then s.inputInstanceUses
                  else s.inputInstanceUses ++ [(i, [])])).isSome = true := by
    split
    · assumption
    · rename_i hnone
      rw [lookupA_append]
      cases h : lookupA i s.inputInstanceUses
      · simp [lookupA]
      · simp [h] at hnone
  constructor
  · intro j recs hl _
    rw [registerUsage] at hl
    simp only at hl
    by_cases hj : j = i
    · subst hj
      simpa [registerUsage] using hok
    · rw [lookupA_setA_ne _ _ hj, huses1 j hj] at hl
      simpa [registerUsage] using h1 j recs hl (by
        intro hrecs
        subst hrecs
        exact absurd rfl (by assumption))
  · intro j pers hl hf
    simp only [registerUsage] at hl
    by_cases hj : j = i
    · subst hj
      rw [usageCount]
      simp only [registerUsage]
      rw [lookupA_setA_self]
      simp [huses1i]
    · rw [usageCount]
      simp only [registerUsage]
      rw [lookupA_setA_ne _ _ hj, huses1 j hj]
      exact h2 j pers hl hf

theorem unRegisterForInput_absent (s : IMState) (u i : Nat) (r : Option Nat)
    (h : lookupA i s.inputInstanceUses = none) :
    unRegisterForInput s u i r = (s, true) := by
  rw [unRegisterForInput, h]

theorem unRegisterForInput_live (s : IMState) (u i : Nat) (r : Option Nat)
    (recs : List (Nat × Option Nat))
    (h : lookupA i s.inputInstanceUses = some recs)
    (hlen : recs.filter (fun l => !(checkItem u r l)) ≠ []) :
    unRegisterForInput s u i r =
      ({ s with inputInstanceUses := setA i (recs.filter (fun l => !(checkItem u r l))) s.inputInstanceUses }, false) := by
  rw [unRegisterForInput, h]
  simp [List.length_eq_zero, hlen]

theorem unRegisterForInput_stale (s : IMState) (u i : Nat) (r : Option Nat)
    (recs : List (Nat × Option Nat))
    (h : lookupA i s.inputInstanceUses = some recs)
    (hlen : recs.filter (fun l => !(checkItem u r l)) = [])
    (hinst : lookupA i s.inputInstances = none) :
    unRegisterForInput s u i r =
      ({ s with inputInstanceUses := setA i [] s.inputInstanceUses }, true) := by
  rw [unRegisterForInput, h]
  simp [hlen, hinst]

theorem unRegisterForInput_pers (s : IMState) (u i : Nat) (r : Option Nat)
    (recs : List (Nat × Option Nat))
    (h : lookupA i s.inputInstanceUses = some recs)
    (hlen : recs.filter (fun l => !(checkItem u r l)) = [])
    (hinst : lookupA i s.inputInstances = some true) :
    unRegisterForInput s u i r =
      ({ s with inputInstanceUses := setA i [] s.inputInstanceUses }, false) := by
  rw [unRegisterForInput, h]
  simp [hlen, hinst]

theorem unRegisterForInput_delete (s : IMState) (u i : Nat) (r : Option Nat)
    (recs : List (Nat × Option Nat))
    (h : lookupA i s.inputInstanceUses = some recs)
    (hlen : recs.filter (fun l => !(checkItem u r l)) = [])
    (hinst : lookupA i s.inputInstances = some false) :
    unRegisterForInput s u i r =
      ({ inputInstances := removeA i s.inputInstances,
         inputInstanceUses := setA i [] s.inputInstanceUses,
         stoppedLog := s.stoppedLog ++ [i] }, false) := by
  rw [unRegisterForInput, h]
  simp [hlen, hinst]

theorem registryInv_emptied (s : IMState) (i : Nat)
    (hs : RegistryInv s)
    (hsome : (lookupA i s.inputInstanceUses).isSome = true)
    (hinst : ∀ pers, lookupA i s.inputInstances = some pers → pers = true) :
    RegistryInv { s with inputInstanceUses := setA i [] s.inputInstanceUses } := by
  obtain ⟨h1, h2⟩ := hs
  constructor
  · intro j recsj hl hne
    by_cases hj : j = i
    · subst hj
      rw [lookupA_setA_self, if_pos hsome] at hl
      cases hl
      exact absurd rfl hne
    · rw [lookupA_setA_ne _ _ hj] at hl
      exact h1 j recsj hl hne
  · intro j pers hl hf
    simp only at hl
    by_cases hj : j = i
    · subst hj
      exact absurd (hinst pers hl) (by rw [hf]; simp)
    · rw [usageCount]
      simp only
      rw [lookupA_setA_ne _ _ hj]
      exact h2 j pers hl hf

theorem registryInv_deleted (s : IMState) (i : Nat) (t : List Nat)
    (hs : RegistryInv s)
    (hsome : (lookupA i s.inputInstanceUses).isSome = true) :
    RegistryInv { inputInstances := removeA i s.inputInstances,
                  inputInstanceUses := setA i [] s.inputInstanceUses,
                  stoppedLog := t } := by
  obtain ⟨h1, h2⟩ := hs
  constructor
  · intro j recsj hl hne
    simp only at hl ⊢
    by_cases hj : j = i
    · subst hj
      rw [lookupA_setA_self, if_pos hsome] at hl
      cases hl
      exact absurd rfl hne
    · rw [lookupA_setA_ne _ _ hj] at hl
      rw [lookupA_removeA_ne _ hj]
      exact h1 j recsj hl hne
  · intro j pers hl hf
    simp only at hl
    by_cases hj : j = i
    · subst hj
      rw [lookupA_removeA_self] at hl
      cases hl
    · rw [lookupA_removeA_ne _ hj] at hl
      rw [usageCount]
      simp only
      rw [lookupA_setA_ne _ _ hj]
      exact h2 j pers hl hf

theorem registryInv_filtered (s : IMState) (u i : Nat) (r : Option Nat)
    (recs : List (Nat × Option Nat))
    (hs : RegistryInv s)
    (h : lookupA i s.inputInstanceUses = some recs)
    (hne : recs.filter (fun l => !(checkItem u r l)) ≠ []) :
    RegistryInv { s with inputInstanceUses := setA i (recs.filter (fun l => !(checkItem u r l))) s.inputInstanceUses } := by
  obtain ⟨h1, h2⟩ := hs
  have hrne : recs ≠ [] := by
    intro hnil
    rw [hnil] at hne
    exact hne rfl
  constructor
  · intro j recsj hl _
    simp only at hl ⊢
    by_cases hj : j = i
    · subst hj
      exact h1 j recs h hrne
    · rw [lookupA_setA_ne _ _ hj] at hl
      exact h1 j recsj hl (by
        intro hrecs0
        subst hrecs0
        exact absurd rfl (by assumption))
  · intro j pers hl hf
    simp only at hl
    rw [usageCount]
    simp only
    by_cases hj : j = i
    · subst hj
      rw [lookupA_setA_self, if_pos (by simp [h])]
      simpa using hne
    · rw [lookupA_setA_ne _ _ hj]
      exact h2 j pers hl hf

theorem unRegisterForInput_preserves (s : IMState) (u i : Nat) (r : Option Nat)
    (hs : RegistryInv s) : RegistryInv (unRegisterForInput s u i r).1 := by
  cases hrecs : lookupA i s.inputInstanceUses with
  | none => rw [unRegisterForInput_absent s u i r hrecs]; exact hs
  | some recs =>
    by_cases hnil : recs.filter (fun l => !(checkItem u r l)) = []
    · cases hinst : lookupA i s.inputInstances with
      | none =>
        rw [unRegisterForInput_stale s u i r recs hrecs hnil hinst]
        exact registryInv_emptied s i hs (by simp [hrecs])
          (fun pers hp => by rw [hinst] at hp; cases hp)
      | some pers =>
        cases pers with
        | true =>
          rw [unRegisterForInput_pers s u i r recs hrecs hnil hinst]
          exact registryInv_emptied s i hs (by simp [hrecs])
            (fun pers2 hp => by rw [hinst] at hp; cases hp; rfl)
        | false =>
          rw [unRegisterForInput_delete s u i r recs hrecs hnil hinst]
          exact registryInv_deleted s i _ hs (by simp [hrecs])
    · rw [unRegisterForInput_live s u i r recs hrecs hnil]
      exact registryInv_filtered s u i r recs hs hrecs hnil

theorem unRegisterBulk_preserves (u : Nat) (r : Option Nat) (ks : List Nat) :
    ∀ (s : IMState), RegistryInv s → RegistryInv (unRegisterBulk u r s ks).1 := by
  induction ks with
  | nil => intro s hs; exact hs
  | cons k ks ih =>
    intro s hs
    rw [unRegisterBulk]
    have hstep := unRegisterForInput_preserves s u k r hs
    by_cases herr : (unRegisterForInput s u k r).2 = true
    · simp [herr]
      exact hstep
    · simp [herr]
      exact ih _ hstep

theorem unRegisterUsage_preserves (s : IMState) (u : Nat) (i : Option Nat)
    (r : Option Nat) (hs : RegistryInv s) : RegistryInv (unRegisterUsage s u i r).1 := by
  rw [unRegisterUsage]
  split
  · exact unRegisterBulk_preserves u r _ s hs
  · exact unRegisterForInput_preserves s u _ r hs

theorem imStep_preserves (s : IMState) (c : IMCall) (hs : RegistryInv s)
    (hok : callOk s c = true) : RegistryInv (imStep s c) := by
  cases c with
  | register u i r => exact registerUsage_preserves s u i r hs (by simpa [callOk] using hok)
  | unregister u i r => exact unRegisterUsage_preserves s u i r hs

theorem imRun_preserves (cs : List IMCall) :
    ∀ (s : IMState), RegistryInv s → wfCalls s cs = true → RegistryInv (imRun s cs) := by
  induction cs with
  | nil => intro s hs _; exact hs
  | cons c cs ih =>
    intro s hs hwf
    rw [wfCalls, Bool.and_eq_true] at hwf
    exact ih (imStep s c) (imStep_preserves s c hs hwf.1) hwf.2

/-- C1 (amended): over every sequence of `registerUsage`/`unRegisterUsage`
calls in which `registerUsage` is only invoked for an instance id still
present in the registry, the registry invariant — an id with live usage
records is present, and a present non-persistent id has a live record — holds
after every call; and the `unRegisterUsage` call that removes the last usage
record of a non-persistent Input stops that Input and deletes it from the
registry in that same call. -/
theorem registry_invariant_preserved :
    (∀ (s : IMState) (cs : List IMCall), RegistryInv s → wfCalls s cs = true →
        RegistryInv (imRun s cs))
    ∧ (∀ (s : IMState) (u i : Nat) (r : Option Nat) (recs : List (Nat × Option Nat)),
        i ≠ 0 →
        lookupA i s.inputInstances = some false →
        lookupA i s.inputInstanceUses = some recs →
        recs.filter (fun l => !(checkItem u r l)) = [] →
        lookupA i (unRegisterUsage s u (some i) r).1.inputInstances = none
        ∧ i ∈ (unRegisterUsage s u (some i) r).1.stoppedLog) := by
  constructor
  · exact fun s cs hs hwf => imRun_preserves cs s hs hwf
  · intro s u i r recs hi hinst hrecs hfilter
    have hbeq : (i == 0) = false := by simpa using hi
    rw [unRegisterUsage]
    simp only [pyFalsyId, hbeq, Bool.false_eq_true, if_false, Option.getD_some]
    rw [unRegisterForInput_delete s u i r recs hrecs hfilter hinst]
    exact ⟨lookupA_removeA_self i _, by simp⟩

/-- Witness for C1 at a concrete registry: one register and one unregister of
instance 1, and the deletion clause at the same state. -/
theorem registry_invariant_preserved_witness :
    RegistryInv (imRun ⟨[(1, false)], [(1, [(5, some 3)])], []⟩
        [IMCall.register 5 1 (some 3), IMCall.unregister 5 (some 1) (some 3)])
    ∧ (lookupA 1 (unRegisterUsage ⟨[(1, false)], [(1, [(5, some 3)])], []⟩
          5 (some 1) (some 3)).1.inputInstances = none
       ∧ 1 ∈ (unRegisterUsage ⟨[(1, false)], [(1, [(5, some 3)])], []⟩
          5 (some 1) (some 3)).1.stoppedLog) :=
  ⟨registry_invariant_preserved.1 _ _ (by rw [registryInv_iff]; decide) (by decide),
   registry_invariant_preserved.2 ⟨[(1, false)], [(1, [(5, some 3)])], []⟩ 5 1 (some 3)
     [(5, some 3)] (by decide) (by decide) (by decide) (by decide)⟩

/-- C1 counterexample: the claim quantifies over every call sequence, but
calling `registerUsage` for an instance id whose instance was already
deleted appends a usage record while `getInputObj` raises `KeyError`,
leaving an id with a live record absent from the registry — the stated
iff-invariant fails after that call. -/
theorem registry_invariant_counterexample :
    RegistryInv (⟨[(1, false)], [(1, [(9, some 9)])], []⟩ : IMState)
    ∧ ¬ RegistryInv (imRun ⟨[(1, false)], [(1, [(9, some 9)])], []⟩
        [IMCall.unregister 9 (some 1) (some 9), IMCall.register 5 1 (some 3)]) := by
  constructor
  · rw [registryInv_iff]; decide
  · rw [registryInv_iff]; decide

/-- C8 (amended): registering the same (consumer, instance, role) n times is
safe and stores n duplicate usage records, but a single
`unRegisterUsage(consumer, instance, role)` removes every matching record at
once, so the non-persistent input is stopped and deleted by the first
unregister call rather than after n separate removals. -/
theorem register_duplicates_bulk_removed (n : Nat) (hn : 2 ≤ n) :
    wfCalls ⟨[(1, false)], [], []⟩ (List.replicate n (IMCall.register 5 1 (some 3))) = true
    ∧ usageCount (imRun ⟨[(1, false)], [], []⟩
        (List.replicate n (IMCall.register 5 1 (some 3)))) 1 = n
    ∧ (unRegisterUsage (imRun ⟨[(1, false)], [], []⟩
        (List.replicate n (IMCall.register 5 1 (some 3)))) 5 (some 1) (some 3)).1
      = ⟨[], [(1, [])], [1]⟩ := by
  have hstep : ∀ k, imStep ⟨[(1, false)], [(1, List.replicate k (5, some 3))], []⟩
      (IMCall.register 5 1 (some 3))
      = ⟨[(1, false)], [(1, List.replicate (k + 1) (5, some 3))], []⟩ := by
    intro k
    simp [imStep, registerUsage, lookupA, setA, List.replicate_succ']
  have hrun : ∀ m k, imRun ⟨[(1, false)], [(1, List.replicate k (5, some 3))], []⟩
      (List.replicate m (IMCall.register 5 1 (some 3)))
      = ⟨[(1, false)], [(1, List.replicate (k + m) (5, some 3))], []⟩ := by
    intro m
    induction m with
    | zero => intro k; simp [imRun]
    | succ m ih =>
      intro k
      rw [List.replicate_succ]
      show imRun (imStep _ _) _ = _
      rw [hstep k, ih (k + 1)]
      have heq : k + 1 + m = k + (m + 1) := by omega
      rw [heq]
  have hwfrun : ∀ m k, wfCalls ⟨[(1, false)], [(1, List.replicate k (5, some 3))], []⟩
      (List.replicate m (IMCall.register 5 1 (some 3))) = true := by
    intro m
    induction m with
    | zero => intro k; rfl
    | succ m ih =>
      intro k
      rw [List.replicate_succ, wfCalls, hstep k, Bool.and_eq_true]
      exact ⟨by simp [callOk, lookupA], ih (k + 1)⟩
  obtain ⟨m, rfl⟩ : ∃ m, n = m + 1 := ⟨n - 1, by omega⟩
  have hfirst : imStep ⟨[(1, false)], [], []⟩ (IMCall.register 5 1 (some 3))
      = ⟨[(1, false)], [(1, List.replicate 1 (5, some 3))], []⟩ := by
    simp [imStep, registerUsage, lookupA, setA]
  refine ⟨?_, ?_, ?_⟩
  · rw [List.replicate_succ, wfCalls, hfirst, Bool.and_eq_true]
    exact ⟨by simp [callOk, lookupA], hwfrun m 1⟩
  · rw [List.replicate_succ]
    show usageCount (imRun (imStep _ _) _) 1 = m + 1
    rw [hfirst, hrun m 1]
    simp [usageCount, lookupA]
    omega
  · rw [List.replicate_succ]
    show (unRegisterUsage (imRun (imStep _ _) _) 5 (some 1) (some 3)).1 = _
    rw [hfirst, hrun m 1]
    rw [unRegisterUsage]
    simp only [pyFalsyId, Option.getD_some]
    rw [show ((1 : Nat) == 0) = false from rfl]
    simp only [Bool.false_eq_true, if_false]
    rw [unRegisterForInput_delete _ 5 1 (some 3) (List.replicate (1 + m) (5, some 3))
        (by simp [lookupA]) (by simp [List.filter_eq_nil_iff, checkItem]) (by simp [lookupA])]
    simp [removeA, setA, lookupA]

/-- Witness for C8 at n = 2. -/
theorem register_duplicates_bulk_removed_witness :
    wfCalls ⟨[(1, false)], [], []⟩ (List.replicate 2 (IMCall.register 5 1 (some 3))) = true
    ∧ usageCount (imRun ⟨[(1, false)], [], []⟩
        (List.replicate 2 (IMCall.register 5 1 (some 3)))) 1 = 2
    ∧ (unRegisterUsage (imRun ⟨[(1, false)], [], []⟩
        (List.replicate 2 (IMCall.register 5 1 (some 3)))) 5 (some 1) (some 3)).1
      = ⟨[], [(1, [])], [1]⟩ :=
  register_duplicates_bulk_removed 2 (by decide)

/-- C8 counterexample: after two identical registrations, a single
`unRegisterUsage` call does not remove just one of the two duplicate
records — it removes both and deletes the non-persistent input at once, so
the second removal the claim requires never has anything left to remove. -/
theorem register_duplicates_counterexample :
    usageCount (imRun ⟨[(1, false)], [], []⟩
        (List.replicate 2 (IMCall.register 5 1 (some 3)))) 1 = 2
    ∧ usageCount (unRegisterUsage (imRun ⟨[(1, false)], [], []⟩
        (List.replicate 2 (IMCall.register 5 1 (some 3)))) 5 (some 1) (some 3)).1 1 = 0
    ∧ lookupA 1 (unRegisterUsage (imRun ⟨[(1, false)], [], []⟩
        (List.replicate 2 (IMCall.register 5 1 (some 3)))) 5 (some 1) (some 3)).1.inputInstances
      = none := by
  decide

/-- C10: after `registerUsage(u, 1, r)` and `unRegisterUsage(u, 1, r)` delete
non-persistent instance 1, its emptied entry stays in the usage-record
table, and a later bulk `unRegisterUsage(u2)` (instance id omitted) raises an
uncaught `KeyError` when it looks the deleted instance up, for any user u2. -/
theorem bulk_teardown_raises (u u2 r : Nat) :
    lookupA 1 (imRun ⟨[(1, false)], [], []⟩
        [IMCall.register u 1 (some r), IMCall.unregister u (some 1) (some r)]).inputInstanceUses
      = some []
    ∧ lookupA 1 (imRun ⟨[(1, false)], [], []⟩
        [IMCall.register u 1 (some r), IMCall.unregister u (some 1) (some r)]).inputInstances
      = none
    ∧ (unRegisterUsage (imRun ⟨[(1, false)], [], []⟩
        [IMCall.register u 1 (some r), IMCall.unregister u (some 1) (some r)])
        u2 none none).2 = true := by
  have h1 : imStep ⟨[(1, false)], [], []⟩ (IMCall.register u 1 (some r))
      = ⟨[(1, false)], [(1, [(u, some r)])], []⟩ := by
    simp [imStep, registerUsage, lookupA, setA]
  have h2 : imStep ⟨[(1, false)], [(1, [(u, some r)])], []⟩
      (IMCall.unregister u (some 1) (some r))
      = ⟨[], [(1, [])], [1]⟩ := by
    rw [imStep, unRegisterUsage]
    simp only [pyFalsyId, Option.getD_some]
    rw [show ((1 : Nat) == 0) = false from rfl]
    simp only [Bool.false_eq_true, if_false]
    rw [unRegisterForInput_delete _ u 1 (some r) [(u, some r)]
        (by simp [lookupA]) (by simp [checkItem]) (by simp [lookupA])]
    simp [removeA, setA, lookupA]
  have hrun : imRun ⟨[(1, false)], [], []⟩
      [IMCall.register u 1 (some r), IMCall.unregister u (some 1) (some r)]
      = ⟨[], [(1, [])], [1]⟩ := by
    simp only [imRun, List.foldl_cons, List.foldl_nil]
    rw [h1, h2]
  rw [hrun]
  refine ⟨rfl, rfl, ?_⟩
  rw [unRegisterUsage]
  simp only [pyFalsyId, if_true]
  rfl

theorem postStopBudget_le_one (st : TimerSys) : postStopBudget st ≤ 1 := by
  rw [postStopBudget]
  cases st.pc <;> try simp
  split <;> simp

theorem tStep_post_stop (st : TimerSys) (a : TAct) (hst : StopFlags st) :
    StopFlags (tStep st a)
    ∧ (tStep st a).fired + postStopBudget (tStep st a)
        ≤ st.fired + postStopBudget st := by
  obtain ⟨hf, hs⟩ := hst
  cases a with
  | clock =>
    refine ⟨⟨hf, hs⟩, ?_⟩
    rw [tStep]
    cases hpc : st.pc <;> simp [postStopBudget, hpc]
  | stopCall =>
    refine ⟨⟨rfl, rfl⟩, ?_⟩
    rw [tStep]
    cases hpc : st.pc <;> simp [postStopBudget, hpc]
  | thread =>
    rw [tStep, threadStep]
    cases hpc : st.pc <;>
      cases hrep : st.repeating <;>
      cases hwe : st.waitEvent <;>
      simp [StopFlags, postStopBudget, hpc, hf, hs, hrep, hwe]

theorem tRun_post_stop (acts : List TAct) :
    ∀ st : TimerSys, StopFlags st →
      (tRun st acts).fired ≤ st.fired + postStopBudget st := by
  induction acts with
  | nil => intro st _; simp [tRun]
  | cons a acts ih =>
    intro st hst
    obtain ⟨hst2, hle⟩ := tStep_post_stop st a hst
    calc (tRun st (a :: acts)).fired = (tRun (tStep st a) acts).fired := rfl
      _ ≤ (tStep st a).fired + postStopBudget (tStep st a) := ih _ hst2
      _ ≤ st.fired + postStopBudget st := hle

/-- C2 (amended): once `stop()` has completed, at most one further callback
invocation can occur over any continuation of any interleaving — namely a
`doFunction` the thread had already committed to (past the `fireFunction`
guard, or the unconditional start-up call of a repeating timer); the race is
not fully closed, but every later scheduling opportunity observes the stop
flags and fires nothing more. -/
theorem timer_stop_at_most_one_late_fire (rep : Bool) (s1 s2 : List TAct) :
    (tRun (timerInit rep) (s1 ++ TAct.stopCall :: s2)).fired
      ≤ (tRun (timerInit rep) (s1 ++ [TAct.stopCall])).fired + 1 := by
  have hsplit : tRun (timerInit rep) (s1 ++ TAct.stopCall :: s2)
      = tRun (tStep (tRun (timerInit rep) s1) TAct.stopCall) s2 := by
    rw [tRun, List.foldl_append]
    rfl
  have hstopped : tRun (timerInit rep) (s1 ++ [TAct.stopCall])
      = tStep (tRun (timerInit rep) s1) TAct.stopCall := by
    rw [tRun, List.foldl_append]
    rfl
  rw [hsplit, hstopped]
  have hflags : StopFlags (tStep (tRun (timerInit rep) s1) TAct.stopCall) := ⟨rfl, rfl⟩
  calc (tRun (tStep (tRun (timerInit rep) s1) TAct.stopCall) s2).fired
      ≤ (tStep (tRun (timerInit rep) s1) TAct.stopCall).fired
        + postStopBudget (tStep (tRun (timerInit rep) s1) TAct.stopCall) :=
        tRun_post_stop s2 _ hflags
    _ ≤ (tStep (tRun (timerInit rep) s1) TAct.stopCall).fired + 1 := by
        have := postStopBudget_le_one (tStep (tRun (timerInit rep) s1) TAct.stopCall)
        omega

/-- C2 counterexample: an interleaving in which the thread has passed the
`fireFunction` guard when `stop()` runs to completion (atomically, with zero
invocations so far); the very next thread step still invokes the callback,
so "zero further invocations after stop, for every interleaving" is false. -/
theorem timer_stop_counterexample :
    (tRun (timerInit false) [TAct.thread, TAct.thread, TAct.clock, TAct.thread,
        TAct.thread, TAct.stopCall]).fired = 0
    ∧ (tRun (timerInit false) [TAct.thread, TAct.thread, TAct.clock, TAct.thread,
        TAct.thread, TAct.stopCall, TAct.thread]).fired = 1 := by
  decide

theorem tStep_noClock (st : TimerSys) (a : TAct) (ha : a ≠ TAct.clock)
    (hst : NoClockInv st) : NoClockInv (tStep st a) := by
  obtain ⟨hrep, hfired, hpcf, hpci, hwe, hgd⟩ := hst
  cases a with
  | clock => exact absurd rfl ha
  | stopCall =>
    refine ⟨hrep, hfired, ?_, ?_, fun _ => rfl, fun _ => rfl⟩ <;>
      simpa [tStep]
  | thread =>
    rw [tStep, threadStep]
    cases hpc : st.pc <;>
      simp_all [NoClockInv, hrep, hfired, hpc] <;>
      aesop

theorem tRun_noClock (acts : List TAct) :
    ∀ st : TimerSys, (∀ a ∈ acts, a ≠ TAct.clock) → NoClockInv st →
      NoClockInv (tRun st acts) := by
  induction acts with
  | nil => intro st _ hst; exact hst
  | cons a acts ih =>
    intro st hacts hst
    exact ih (tStep st a) (fun b hb => hacts b (List.mem_cons_of_mem a hb))
      (tStep_noClock st a (hacts a (List.mem_cons_self a acts)) hst)

/-- C7 (amended): a non-repeating timer invokes no callback before the first
hardware-timer expiry, over every schedule without a clock-expiry step; a
repeating timer, however, performs one unconditional callback invocation
immediately at thread start, before any interval has elapsed. -/
theorem timer_first_fire (acts : List TAct) (hacts : ∀ a ∈ acts, a ≠ TAct.clock) :
    (tRun (timerInit false) acts).fired = 0
    ∧ (tRun (timerInit true) [TAct.thread, TAct.thread]).fired = 1 := by
  refine ⟨?_, by decide⟩
  have hinit : NoClockInv (timerInit false) := by
    refine ⟨rfl, rfl, by decide, by decide, ?_, ?_⟩ <;> simp [timerInit]
  exact (tRun_noClock acts (timerInit false) hacts hinit).2.1

/-- Witness for C7 on a concrete clock-free schedule. -/
theorem timer_first_fire_witness :
    (tRun (timerInit false) [TAct.thread, TAct.thread, TAct.thread]).fired = 0
    ∧ (tRun (timerInit true) [TAct.thread, TAct.thread]).fired = 1 :=
  timer_first_fire [TAct.thread, TAct.thread, TAct.thread] (by decide)

/-- C7 counterexample: for a repeating timer, two thread steps with no clock
expiry at all already invoke the callback once — the first invocation does
not wait for the interval to elapse. -/
theorem timer_immediate_fire_counterexample :
    (∀ a ∈ ([TAct.thread, TAct.thread] : List TAct), a ≠ TAct.clock)
    ∧ (tRun (timerInit true) [TAct.thread, TAct.thread]).fired = 1 := by
  decide

/-- C6: `connect()` tries the configured ports strictly in order, stopping at
the first success: the attempted opens are exactly the failing prefix plus
the first succeeding port, the single connection slot holds that port (or
none when all fail, returning normally), the log gains one failure record
per failed attempt; concretely for ports [A, B] with A failing and B
succeeding, the result is a live connection via B and exactly one failure
record for A. -/
theorem connect_first_success :
    (∀ (openOk : Nat → Bool) (st : AdaptorState),
      (connect openOk st).1.connection = st.ports.find? openOk
      ∧ (connect openOk st).2
        = (st.ports.takeWhile (fun p => !(openOk p))).map Action.openPort
          ++ (match st.ports.find? openOk with
              | some p => [Action.openPort p]
              | none => [])
      ∧ (connect openOk st).1.log
        = st.log
          ++ (st.ports.takeWhile (fun p => !(openOk p))).map (LogEntry.connectFail st.adaptorId)
          ++ (match st.ports.find? openOk with
              | some p => [LogEntry.connected st.adaptorId p]
              | none => []))
    ∧ (∀ openOk : Nat → Bool, openOk 10 = false → openOk 20 = true →
        (connect openOk ⟨7, [10, 20], none, []⟩).1.connection = some 20
        ∧ (connect openOk ⟨7, [10, 20], none, []⟩).1.log
          = [LogEntry.connectFail 7 10, LogEntry.connected 7 20]) := by
  have hloop : ∀ (openOk : Nat → Bool) (aid : Nat) (ps : List Nat),
      connectLoop openOk aid ps
        = (ps.find? openOk,
           (ps.takeWhile (fun p => !(openOk p))).map (LogEntry.connectFail aid)
             ++ (match ps.find? openOk with
                 | some p => [LogEntry.connected aid p]
                 | none => []),
           (ps.takeWhile (fun p => !(openOk p))).map Action.openPort
             ++ (match ps.find? openOk with
                 | some p => [Action.openPort p]
                 | none => [])) := by
    intro openOk aid ps
    induction ps with
    | nil => simp [connectLoop]
    | cons p ps ih =>
      by_cases h : openOk p
      · simp [connectLoop, h, List.find?, List.takeWhile]
      · simp [connectLoop, h, ih, List.find?, List.takeWhile]
  constructor
  · intro openOk st
    refine ⟨?_, ?_, ?_⟩ <;>
      (rw [connect]; simp [hloop openOk st.adaptorId st.ports])
  · intro openOk hA hB
    constructor <;>
      (rw [connect]; simp [connectLoop, hA, hB])

/-- Witness for C6 with the oracle that opens only port 20. -/
theorem connect_first_success_witness :
    (connect (fun p => p == 20) ⟨7, [10, 20], none, []⟩).1.connection
        = [10, 20].find? (fun p => p == 20)
    ∧ (connect (fun p => p == 20) ⟨7, [10, 20], none, []⟩).1.connection = some 20
    ∧ (connect (fun p => p == 20) ⟨7, [10, 20], none, []⟩).1.log
        = [LogEntry.connectFail 7 10, LogEntry.connected 7 20] :=
  ⟨(connect_first_success.1 (fun p => p == 20) ⟨7, [10, 20], none, []⟩).1,
   (connect_first_success.2 (fun p => p == 20) rfl rfl).1,
   (connect_first_success.2 (fun p => p == 20) rfl rfl).2⟩

/-- C3 (amended): `transmitData` writes the payload; on a write failure it
performs exactly one `connect()` followed by exactly one retried write; if
the retried write also fails the payload is dropped and the transmit failure
is logged with the adaptor id — but the function returns success (`True`) to
the caller in every case, because the `success = False` assignment is
commented out in the source; no exception reaches the caller. -/
theorem transmitData_always_reports_success (openOk writeOk : Nat → Bool)
    (st : AdaptorState) :
    (transmitData openOk writeOk st).2.1 = true
    ∧ (writeAttempt writeOk st.connection = true →
        (transmitData openOk writeOk st).2.2 = [Action.write]
        ∧ (transmitData openOk writeOk st).1 = st)
    ∧ (writeAttempt writeOk st.connection = false →
        (transmitData openOk writeOk st).2.2
          = Action.write :: (connect openOk st).2 ++ [Action.write])
    ∧ (writeAttempt writeOk st.connection = false →
        writeAttempt writeOk (connect openOk st).1.connection = false →
        (transmitData openOk writeOk st).1.log
          = (connect openOk st).1.log ++ [LogEntry.sendFail st.adaptorId]) := by
  refine ⟨?_, ?_, ?_, ?_⟩
  · rw [transmitData]
    split
    · rfl
    · split <;> rfl
  · intro hw
    rw [transmitData, if_pos hw]
    exact ⟨rfl, rfl⟩
  · intro hw
    rw [transmitData, if_neg (by simp [hw])]
    split <;> rfl
  · intro hw hw2
    rw [transmitData, if_neg (by simp [hw]), if_neg (by simp [hw2])]

/-- Witness for C3: with every open and write failing, the call still
returns `True` after one reconnect and one retried write and a logged send
failure. -/
theorem transmitData_always_reports_success_witness :
    (transmitData (fun _ => false) (fun _ => false) ⟨7, [10], none, []⟩).2.1 = true
    ∧ ((transmitData (fun _ => false) (fun _ => false) ⟨7, [10], none, []⟩).2.2
        = Action.write :: (connect (fun _ => false) ⟨7, [10], none, []⟩).2 ++ [Action.write]
      ∧ (transmitData (fun _ => false) (fun _ => false) ⟨7, [10], none, []⟩).1.log
        = (connect (fun _ => false) ⟨7, [10], none, []⟩).1.log ++ [LogEntry.sendFail 7]) :=
  ⟨(transmitData_always_reports_success (fun _ => false) (fun _ => false)
      ⟨7, [10], none, []⟩).1,
   (transmitData_always_reports_success (fun _ => false) (fun _ => false)
      ⟨7, [10], none, []⟩).2.2.1 rfl,
   (transmitData_always_reports_success (fun _ => false) (fun _ => false)
      ⟨7, [10], none, []⟩).2.2.2 rfl rfl⟩

/-- C3 counterexample: when the write, the reconnect and the retried write
all fail, the payload is dropped and the failure logged, yet `transmitData`
returns `True` — not a failure result — to the caller. -/
theorem transmitData_failure_counterexample :
    (transmitData (fun _ => false) (fun _ => false) ⟨7, [10], none, []⟩).1.log
      = [LogEntry.connectFail 7 10, LogEntry.sendFail 7]
    ∧ (transmitData (fun _ => false) (fun _ => false) ⟨7, [10], none, []⟩).2.1 = true := by
  decide

/-- C4: the mailbox append returns `True` immediately and performs no
adaptor call; for payloads P1 then P2 appended before any drain, the next
drain iteration takes the whole pending content P1 ++ P2 in append order,
clears the mailbox, and hands it to the adaptor in a single call, with no
bytes lost or duplicated. -/
theorem worker_mailbox_coalesces (st : WorkerState) (P1 P2 : List Nat)
    (hempty : st.data = []) (hne : P1 ≠ []) :
    (workerTransmitData st P1).2 = true
    ∧ (workerTransmitData (workerTransmitData st P1).1 P2).2 = true
    ∧ (workerTransmitData st P1).1.sentCalls = st.sentCalls
    ∧ (workerTransmitData (workerTransmitData st P1).1 P2).1.sentCalls = st.sentCalls
    ∧ (workerTransmitData (workerTransmitData st P1).1 P2).1.data = P1 ++ P2
    ∧ workerDrainStep (workerTransmitData (workerTransmitData st P1).1 P2).1
      = ⟨[], st.sentCalls ++ [P1 ++ P2]⟩ := by
  refine ⟨rfl, rfl, rfl, rfl, by simp [workerTransmitData, hempty], ?_⟩
  rw [workerDrainStep]
  simp [workerTransmitData, hempty, hne]

/-- Witness for C4 with P1 = [1], P2 = [2] on a fresh worker. -/
theorem worker_mailbox_coalesces_witness :
    (⟨[], []⟩ : WorkerState).data = [] ∧ ([1] : List Nat) ≠ []
    ∧ workerDrainStep (workerTransmitData (workerTransmitData ⟨[], []⟩ [1]).1 [2]).1
      = ⟨[], [] ++ [[1] ++ [2]]⟩ :=
  ⟨rfl, by decide,
   (worker_mailbox_coalesces ⟨[], []⟩ [1] [2] rfl (by decide)).2.2.2.2.2⟩

/-- C5: each composed cell is the logical OR over the active patterns of
(row mask AND pattern state); on the 1×3 scenario with X = [true, false,
false] and Y = [false, false, true] both masked in, the composed output is
[true, false, true], and masking Y's row out yields [true, false, false]. -/
theorem poofer_composes_by_or (pats : List PatternEntry) (row col : Nat) :
    poofCellState pats row col
      = pats.any (fun p => p.rowSettings.getD row false && p.getState row col)
    ∧ pooferDoUpdates [patternX, patternY] 1 3 = [[true, false, true]]
    ∧ pooferDoUpdates [patternX, patternYoff] 1 3 = [[true, false, false]] := by
  refine ⟨?_, by decide, by decide⟩
  rw [poofCellState]
  suffices h : ∀ b : Bool, pats.foldl
      (fun st p => if p.rowSettings.getD row false && p.getState row col then true else st) b
      = (b || pats.any (fun p => p.rowSettings.getD row false && p.getState row col)) by
    simpa using h false
  induction pats with
  | nil => intro b; simp
  | cons p ps ih =>
    intro b
    rw [List.foldl_cons, List.any_cons]
    by_cases hc : (p.rowSettings.getD row false && p.getState row col) = true
    · rw [if_pos hc, ih, hc]
      cases b <;> simp
    · rw [if_neg hc, ih]
      cases hcb : (p.rowSettings.getD row false && p.getState row col)
      · simp
      · exact absurd hcb hc

/-- C9: the colour setter raises exactly when some component leaves
[0, 255] and the brightness setter exactly when the value leaves [0, 1]; a
raising call leaves the previously stored value unchanged, and a
non-raising call stores the supplied value. -/
theorem led_setters_check_bounds (led : LED) (t : Int × Int × Int) (b : Rat) :
    ((setColorTriple led t).2 = true
      ↔ ¬ (0 ≤ t.1 ∧ t.1 ≤ 255 ∧ 0 ≤ t.2.1 ∧ t.2.1 ≤ 255 ∧ 0 ≤ t.2.2 ∧ t.2.2 ≤ 255))
    ∧ ((setColorTriple led t).2 = true → (setColorTriple led t).1 = led)
    ∧ ((setColorTriple led t).2 = false →
        (setColorTriple led t).1 = { led with color_triple := t })
    ∧ ((setBrightness led b).2 = true ↔ ¬ (0 ≤ b ∧ b ≤ 1))
    ∧ ((setBrightness led b).2 = true → (setBrightness led b).1 = led)
    ∧ ((setBrightness led b).2 = false →
        (setBrightness led b).1 = { led with brightness := b }) := by
  rw [setColorTriple, setBrightness]
  refine ⟨?_, ?_, ?_, ?_, ?_, ?_⟩ <;>
    (repeat' split) <;>
    simp <;>
    first
      | omega
      | (intro h1; linarith)
      | (constructor <;> linarith)

/-- Witness for C9: out-of-range sets are rejected with the prior value
kept; in-range sets are stored. -/
theorem led_setters_check_bounds_witness :
    (setColorTriple ⟨(1, 2, 3), 0⟩ (300, 0, 0)).2 = true
    ∧ (setColorTriple ⟨(1, 2, 3), 0⟩ (300, 0, 0)).1 = ⟨(1, 2, 3), 0⟩
    ∧ (setColorTriple ⟨(1, 2, 3), 0⟩ (4, 5, 6)).1 = ⟨(4, 5, 6), 0⟩
    ∧ (setBrightness ⟨(1, 2, 3), 0⟩ 2).1 = ⟨(1, 2, 3), 0⟩
    ∧ (setBrightness ⟨(1, 2, 3), 0⟩ 1).1 = ⟨(1, 2, 3), 1⟩ :=
  ⟨(led_setters_check_bounds ⟨(1, 2, 3), 0⟩ (300, 0, 0) 2).1.mpr (by omega),
   (led_setters_check_bounds ⟨(1, 2, 3), 0⟩ (300, 0, 0) 2).2.1 (by decide),
   (led_setters_check_bounds ⟨(1, 2, 3), 0⟩ (4, 5, 6) 2).2.2.1 (by decide),
   (led_setters_check_bounds ⟨(1, 2, 3), 0⟩ (300, 0, 0) 2).2.2.2.2.1 (by decide),
   (led_setters_check_bounds ⟨(1, 2, 3), 0⟩ (300, 0, 0) 1).2.2.2.2.2 (by decide)⟩

end FireSculpture
